import Mathlib

/-!
Verification of the namespace provisioner in `src/1_setup/setup_catalogs.py`
(a Databricks notebook consisting of five SQL DDL statements).

We shallowly embed the platform state touched by the script — the set of
catalogs, the set of (catalog, schema) pairs, the session's active catalog,
and the table data (never touched by DDL) — together with a permission model
for the connection, and give the standard semantics of the three statement
kinds the notebook uses: `CREATE CATALOG IF NOT EXISTS`, `USE CATALOG`, and
`CREATE SCHEMA IF NOT EXISTS` (with either a fully qualified name or an
unqualified name resolved against the session's active catalog).
-/

/-- State of the data platform and session visible to the script:
existing catalogs, existing schemas as (catalog, schema) pairs, the
session's active catalog, and table data (fully qualified table name
paired with its rows), which DDL never reads or writes. -/
structure PlatformState where
  catalogs : List String
  schemas : List (String × String)
  activeCatalog : Option String
  tables : List (String × List String)
deriving DecidableEq, Repr

/-- Privileges held by the authenticated connection the script runs on. -/
structure Perms where
  canCreateCatalog : Bool
  canCreateSchema : Bool
deriving DecidableEq, Repr

/-- The statement kinds occurring in the notebook.  A `createSchema` carries
an optional catalog qualifier: the source always writes the qualified form
(`fmcg.gold`), while an unqualified name would resolve against the session's
active catalog. -/
inductive Stmt where
  | createCatalog (name : String)
  | useCatalog (name : String)
  | createSchema (catalog : Option String) (name : String)
deriving DecidableEq, Repr

/-- Platform semantics of one statement: `CREATE ... IF NOT EXISTS` is a
no-op when the object exists, creates it when the connection has the
privilege, and otherwise fails; `USE CATALOG` sets the session's active
catalog when the catalog exists; creating a schema requires its parent
catalog to exist. -/
def execStmt (p : Perms) (s : PlatformState) : Stmt → Except String PlatformState
  | .createCatalog c =>
      if c ∈ s.catalogs then .ok s
      else if p.canCreateCatalog then .ok { s with catalogs := c :: s.catalogs }
      else .error "PERMISSION_DENIED: CREATE CATALOG"
  | .useCatalog c =>
      if c ∈ s.catalogs then .ok { s with activeCatalog := some c }
      else .error "CATALOG_NOT_FOUND"
  | .createSchema q n =>
      match q.orElse (fun _ => s.activeCatalog) with
      | none => .error "NO_ACTIVE_CATALOG"
      | some c =>
          if c ∈ s.catalogs then
            if (c, n) ∈ s.schemas then .ok s
            else if p.canCreateSchema then
              .ok { s with schemas := (c, n) :: s.schemas }
            else .error "PERMISSION_DENIED: CREATE SCHEMA"
          else .error "CATALOG_NOT_FOUND"

/-- Outcome of running a script: either it completes with a final state, or
it halts at the first failing statement, keeping the state reached by the
successful prefix together with the platform's error message. -/
inductive RunResult where
  | ok (s : PlatformState)
  | failed (s : PlatformState) (msg : String)
deriving DecidableEq, Repr

/-- The state carried by a run outcome, successful or halted. -/
def RunResult.state : RunResult → PlatformState
  | .ok s => s
  | .failed s _ => s

/-- Whether a run completed without error. -/
def RunResult.isOk : RunResult → Bool
  | .ok _ => true
  | .failed _ _ => false

/-- Sequential execution: statements run in order; the first failure halts
the script (no local recovery, no rollback). -/
def runStmts (p : Perms) : List Stmt → PlatformState → RunResult
  | [], s => .ok s
  | stmt :: rest, s =>
      match execStmt p s stmt with
      | .ok s' => runStmts p rest s'
      | .error m => .failed s m

/-- The five statements of `src/1_setup/setup_catalogs.py`, in source order.
Note that the three `CREATE SCHEMA` statements use fully qualified names. -/
def setup_catalogs : List Stmt :=
  [ .createCatalog "fmcg",
    .useCatalog "fmcg",
    .createSchema (some "fmcg") "gold",
    .createSchema (some "fmcg") "silver",
    .createSchema (some "fmcg") "bronze" ]

/-- Running the provisioner notebook from a given initial state. -/
def runProvisioner (p : Perms) (s : PlatformState) : RunResult :=
  runStmts p setup_catalogs s

/-- The platform's namespace listing: every catalog name and every
dot-qualified schema name. -/
def namespaceListing (s : PlatformState) : List String :=
  s.catalogs ++ s.schemas.map (fun q => q.1 ++ "." ++ q.2)

/-- A platform with no namespaces, no session context, and no data. -/
def emptyPlatform : PlatformState := ⟨[], [], none, []⟩

/-- A connection allowed to create both catalogs and schemas. -/
def allPerms : Perms := ⟨true, true⟩

/-- The state the provisioner produces from the empty platform. -/
def provisionedEmpty : PlatformState :=
  ⟨["fmcg"], [("fmcg", "bronze"), ("fmcg", "silver"), ("fmcg", "gold")],
    some "fmcg", []⟩

/-- Reference sequence transcribed from the spec's words (section 4.1 and
the bit-exact DDL surface of section 6): ensure catalog `fmcg`, select it,
ensure the three schemas `fmcg.gold`, `fmcg.silver`, `fmcg.bronze`. -/
def referenceSequence : List Stmt :=
  [ .createCatalog "fmcg",
    .useCatalog "fmcg",
    .createSchema (some "fmcg") "gold",
    .createSchema (some "fmcg") "silver",
    .createSchema (some "fmcg") "bronze" ]

/-- C1: from the empty platform the provisioner completes and the namespace
listing holds exactly the catalog `fmcg` and the schemas `fmcg.gold`,
`fmcg.silver`, `fmcg.bronze`. -/
theorem empty_run_exact_listing :
    runProvisioner allPerms emptyPlatform = .ok provisionedEmpty ∧
    ∀ x, x ∈ namespaceListing provisionedEmpty ↔
      x = "fmcg" ∨ x = "fmcg.gold" ∨ x = "fmcg.silver" ∨ x = "fmcg.bronze" := by
  refine ⟨rfl, ?_⟩
  intro x
  simp [namespaceListing, provisionedEmpty]
  tauto

/-- C3: the embedded script is exactly the spec's reference sequence of five
statements, with nothing else. -/
theorem script_is_reference_sequence :
    setup_catalogs = referenceSequence ∧ setup_catalogs.length = 5 :=
  ⟨rfl, rfl⟩

/-- A successful `CREATE CATALOG IF NOT EXISTS` leaves schemas, the session
and the data untouched, and its catalog listing afterwards is the old one
with the requested name adjoined (a no-op when it already existed). -/
lemma createCatalog_ok (p : Perms) (s : PlatformState) (c : String)
    (s' : PlatformState) (h : execStmt p s (.createCatalog c) = .ok s') :
    s'.schemas = s.schemas ∧ s'.activeCatalog = s.activeCatalog ∧
    s'.tables = s.tables ∧
    (∀ x, x ∈ s'.catalogs ↔ x = c ∨ x ∈ s.catalogs) := by
  simp only [execStmt] at h
  split at h
  · cases h
    refine ⟨rfl, rfl, rfl, fun x => ?_⟩
    constructor
    · exact fun hx => Or.inr hx
    · rintro (rfl | hx)
      · assumption
      · exact hx
  · split at h
    · cases h
      exact ⟨rfl, rfl, rfl, fun x => by simp [List.mem_cons]⟩
    · cases h

/-- A successful `USE CATALOG` only sets the session's active catalog, and
requires the catalog to exist. -/
lemma useCatalog_ok (p : Perms) (s : PlatformState) (c : String)
    (s' : PlatformState) (h : execStmt p s (.useCatalog c) = .ok s') :
    s' = { s with activeCatalog := some c } ∧ c ∈ s.catalogs := by
  simp only [execStmt] at h
  split at h
  · cases h
    exact ⟨rfl, by assumption⟩
  · cases h

/-- A successful qualified `CREATE SCHEMA IF NOT EXISTS` leaves catalogs,
the session and the data untouched, requires the parent catalog to exist,
and adjoins the requested schema to the listing. -/
lemma createSchemaQ_ok (p : Perms) (s : PlatformState) (c n : String)
    (s' : PlatformState)
    (h : execStmt p s (.createSchema (some c) n) = .ok s') :
    s'.catalogs = s.catalogs ∧ s'.activeCatalog = s.activeCatalog ∧
    s'.tables = s.tables ∧ c ∈ s.catalogs ∧
    (∀ q, q ∈ s'.schemas ↔ q = (c, n) ∨ q ∈ s.schemas) := by
  simp only [execStmt, Option.orElse] at h
  split at h
  · split at h
    · cases h
      refine ⟨rfl, rfl, rfl, by assumption, fun q => ?_⟩
      constructor
      · exact fun hq => Or.inr hq
      · rintro (rfl | hq)
        · assumption
        · exact hq
    · split at h
      · cases h
        exact ⟨rfl, rfl, rfl, by assumption, fun q => by simp [List.mem_cons]⟩
      · cases h
  · cases h

/-- Functional description of a successful provisioner run: the table data
is untouched, the session's active catalog ends up at `fmcg`, the catalog
listing is the old one plus `fmcg`, and the schema listing is the old one
plus the three tier schemas. -/
lemma run_ok_spec (p : Perms) (s s' : PlatformState)
    (h : runProvisioner p s = .ok s') :
    s'.tables = s.tables ∧ s'.activeCatalog = some "fmcg" ∧
    (∀ x, x ∈ s'.catalogs ↔ x = "fmcg" ∨ x ∈ s.catalogs) ∧
    (∀ q, q ∈ s'.schemas ↔
      q = ("fmcg", "gold") ∨ q = ("fmcg", "silver") ∨
      q = ("fmcg", "bronze") ∨ q ∈ s.schemas) := by
  simp only [runProvisioner, setup_catalogs, runStmts] at h
  cases h1 : execStmt p s (.createCatalog "fmcg") with
  | error m =>
    simp only [h1] at h
    cases h
  | ok s1 =>
    simp only [h1] at h
    obtain ⟨e1s, e1a, e1t, e1c⟩ := createCatalog_ok p s "fmcg" s1 h1
    cases h2 : execStmt p s1 (.useCatalog "fmcg") with
    | error m =>
      simp only [h2] at h
      cases h
    | ok s2 =>
      simp only [h2] at h
      obtain ⟨h2eq, h2mem⟩ := useCatalog_ok p s1 "fmcg" s2 h2
      subst h2eq
      cases h3 : execStmt p { s1 with activeCatalog := some "fmcg" }
          (.createSchema (some "fmcg") "gold") with
      | error m =>
        simp only [h3] at h
        cases h
      | ok s3 =>
        simp only [h3] at h
        obtain ⟨e3c, e3a, e3t, _, e3s⟩ :=
          createSchemaQ_ok p _ "fmcg" "gold" s3 h3
        cases h4 : execStmt p s3 (.createSchema (some "fmcg") "silver") with
        | error m =>
          simp only [h4] at h
          cases h
        | ok s4 =>
          simp only [h4] at h
          obtain ⟨e4c, e4a, e4t, _, e4s⟩ :=
            createSchemaQ_ok p s3 "fmcg" "silver" s4 h4
          cases h5 : execStmt p s4 (.createSchema (some "fmcg") "bronze") with
          | error m =>
            simp only [h5] at h
            cases h
          | ok s5 =>
            simp only [h5] at h
            obtain ⟨e5c, e5a, e5t, _, e5s⟩ :=
              createSchemaQ_ok p s4 "fmcg" "bronze" s5 h5
            cases h
            refine ⟨?_, ?_, ?_, ?_⟩
            · rw [e5t, e4t, e3t]
              exact e1t
            · rw [e5a, e4a, e3a]
            · intro x
              rw [e5c, e4c, e3c]
              exact e1c x
            · intro q
              rw [e5s q, e4s q, e3s q]
              show _ ∨ _ ∨ _ ∨ q ∈ s1.schemas ↔ _
              rw [e1s]
              tauto

/-- On a platform already holding the catalog, the three schemas and the
active-catalog setting, the provisioner is a no-op: every statement takes
its `IF NOT EXISTS` (or redundant `USE`) branch. -/
lemma run_fixed (p : Perms) (s : PlatformState)
    (h1 : "fmcg" ∈ s.catalogs) (hg : ("fmcg", "gold") ∈ s.schemas)
    (hs : ("fmcg", "silver") ∈ s.schemas) (hb : ("fmcg", "bronze") ∈ s.schemas)
    (ha : s.activeCatalog = some "fmcg") :
    runProvisioner p s = .ok s := by
  obtain ⟨cs, ss, ac, tb⟩ := s
  dsimp only at h1 hg hs hb ha
  subst ha
  simp [runProvisioner, setup_catalogs, runStmts, execStmt, Option.orElse,
    h1, hg, hs, hb]

/-- C2: running the provisioner a second time from the final state of a
successful run is not an error and produces that same final state, so the
namespace set after two runs equals the namespace set after one. -/
theorem run_twice_equals_once (p : Perms) (s s' : PlatformState)
    (h : runProvisioner p s = .ok s') :
    runProvisioner p s' = .ok s' := by
  obtain ⟨ht, ha, hciff, hsiff⟩ := run_ok_spec p s s' h
  exact run_fixed p s' ((hciff "fmcg").2 (Or.inl rfl))
    ((hsiff _).2 (Or.inl rfl))
    ((hsiff _).2 (Or.inr (Or.inl rfl)))
    ((hsiff _).2 (Or.inr (Or.inr (Or.inl rfl)))) ha

/-- Witness for C2: from the empty platform the first run succeeds, and the
second run reproduces the same final state without error. -/
theorem run_twice_equals_once_witness :
    runProvisioner allPerms emptyPlatform = .ok provisionedEmpty ∧
    runProvisioner allPerms provisionedEmpty = .ok provisionedEmpty :=
  ⟨rfl, run_twice_equals_once allPerms emptyPlatform provisionedEmpty rfl⟩

/-- Counterexample to C6 as stated: the session's active-catalog component
is not identical before and after a successful run — from the empty
platform (active catalog unset) it ends up set to `fmcg`. -/
theorem session_change_counterexample :
    runProvisioner allPerms emptyPlatform = .ok provisionedEmpty ∧
    provisionedEmpty.activeCatalog ≠ emptyPlatform.activeCatalog :=
  ⟨rfl, by simp [provisionedEmpty, emptyPlatform]⟩

/-- C6 (amended): a successful run's only effects are namespace creation
and setting the session's active catalog to `fmcg`: table data is
identical, and the namespace listings only gain the catalog `fmcg` and the
three tier schemas. -/
theorem provisioner_side_effects (p : Perms) (s s' : PlatformState)
    (h : runProvisioner p s = .ok s') :
    s'.tables = s.tables ∧ s'.activeCatalog = some "fmcg" ∧
    (∀ x, x ∈ s'.catalogs ↔ x = "fmcg" ∨ x ∈ s.catalogs) ∧
    (∀ q, q ∈ s'.schemas ↔
      q = ("fmcg", "gold") ∨ q = ("fmcg", "silver") ∨
      q = ("fmcg", "bronze") ∨ q ∈ s.schemas) :=
  run_ok_spec p s s' h

/-- Witness for C6 (amended) at the empty platform. -/
theorem provisioner_side_effects_witness :
    provisionedEmpty.tables = emptyPlatform.tables ∧
    provisionedEmpty.activeCatalog = some "fmcg" ∧
    (∀ x, x ∈ provisionedEmpty.catalogs ↔
      x = "fmcg" ∨ x ∈ emptyPlatform.catalogs) ∧
    (∀ q, q ∈ provisionedEmpty.schemas ↔
      q = ("fmcg", "gold") ∨ q = ("fmcg", "silver") ∨
      q = ("fmcg", "bronze") ∨ q ∈ emptyPlatform.schemas) :=
  provisioner_side_effects allPerms emptyPlatform provisionedEmpty rfl

/-- A platform where the catalog `fmcg` pre-exists with no schemas. -/
def catalogOnlyPlatform : PlatformState := ⟨["fmcg"], [], none, []⟩

/-- A connection allowed to create schemas but not catalogs. -/
def schemaPerms : Perms := ⟨false, true⟩

/-- C5: when the catalog `fmcg` pre-exists and holds no schemas, the run
succeeds and the final state is the initial one with exactly the three tier
schemas added and the active catalog selected — the catalog listing is left
unchanged. -/
theorem preexisting_catalog_gains_schemas (p : Perms) (s : PlatformState)
    (hcat : "fmcg" ∈ s.catalogs) (hnone : ∀ n, ("fmcg", n) ∉ s.schemas)
    (hperm : p.canCreateSchema = true) :
    runProvisioner p s = .ok
      { s with
          activeCatalog := some "fmcg"
          schemas := ("fmcg", "bronze") :: ("fmcg", "silver") ::
            ("fmcg", "gold") :: s.schemas } := by
  obtain ⟨cs, ss, ac, tb⟩ := s
  dsimp only at hcat hnone
  simp [runProvisioner, setup_catalogs, runStmts, execStmt, Option.orElse,
    hcat, hperm, hnone]

/-- Witness for C5: catalog-only platform, schema-only privileges. -/
theorem preexisting_catalog_gains_schemas_witness :
    ("fmcg" ∈ catalogOnlyPlatform.catalogs) ∧
    runProvisioner schemaPerms catalogOnlyPlatform = .ok
      { catalogOnlyPlatform with
          activeCatalog := some "fmcg"
          schemas := ("fmcg", "bronze") :: ("fmcg", "silver") ::
            ("fmcg", "gold") :: catalogOnlyPlatform.schemas } :=
  ⟨by simp [catalogOnlyPlatform],
    preexisting_catalog_gains_schemas schemaPerms catalogOnlyPlatform
      (by simp [catalogOnlyPlatform]) (fun n => by simp [catalogOnlyPlatform])
      rfl⟩

/-- A failed run decomposes as a successful prefix, whose final state is the
one the run halts in, followed by the failing statement; the statements
after it never execute. -/
lemma runStmts_failed_split (p : Perms) :
    ∀ (l : List Stmt) (t t' : PlatformState) (m : String),
      runStmts p l t = .failed t' m →
      ∃ pre stmt post, l = pre ++ stmt :: post ∧
        runStmts p pre t = .ok t' ∧ execStmt p t' stmt = .error m := by
  intro l
  induction l with
  | nil =>
    intro t t' m h
    simp only [runStmts] at h
    cases h
  | cons stmt rest ih =>
    intro t t' m h
    simp only [runStmts] at h
    cases he : execStmt p t stmt with
    | ok s1 =>
      simp only [he] at h
      obtain ⟨pre, st, post, hl, hrun, hex⟩ := ih s1 t' m h
      exact ⟨stmt :: pre, st, post, by rw [hl]; rfl,
        by simp only [runStmts, he]; exact hrun, hex⟩
    | error m0 =>
      simp only [he] at h
      cases h
      exact ⟨[], stmt, rest, rfl, rfl, he⟩

/-- C4: a connection without catalog-creation privilege, on a platform
where `fmcg` is absent, fails at the very first statement with the state
exactly as it was (no schema created, pre-existing namespaces untouched);
and in general any failed run of the script halts at the failing statement,
keeping the effects of the successful prefix and executing nothing after
it. -/
theorem failure_halts_without_rollback (p : Perms) (s : PlatformState)
    (hperm : p.canCreateCatalog = false) (habs : "fmcg" ∉ s.catalogs) :
    runProvisioner p s = .failed s "PERMISSION_DENIED: CREATE CATALOG" ∧
    ∀ (t t' : PlatformState) (m : String),
      runProvisioner p t = .failed t' m →
      ∃ pre stmt post, setup_catalogs = pre ++ stmt :: post ∧
        runStmts p pre t = .ok t' ∧ execStmt p t' stmt = .error m := by
  constructor
  · simp [runProvisioner, setup_catalogs, runStmts, execStmt, habs, hperm]
  · intro t t' m h
    exact runStmts_failed_split p setup_catalogs t t' m h

/-- Witness for C4: schema-only privileges on the empty platform make the
run fail at statement one, leaving the empty platform unchanged. -/
theorem failure_halts_without_rollback_witness :
    schemaPerms.canCreateCatalog = false ∧ "fmcg" ∉ emptyPlatform.catalogs ∧
    runProvisioner schemaPerms emptyPlatform =
      .failed emptyPlatform "PERMISSION_DENIED: CREATE CATALOG" :=
  ⟨rfl, by simp [emptyPlatform],
    (failure_halts_without_rollback schemaPerms emptyPlatform rfl
      (by simp [emptyPlatform])).1⟩

/-- A successful statement never removes a catalog or a schema. -/
lemma execStmt_mono (p : Perms) (t : Stmt) (s s' : PlatformState)
    (h : execStmt p s t = .ok s') :
    s.catalogs ⊆ s'.catalogs ∧ s.schemas ⊆ s'.schemas := by
  cases t with
  | createCatalog c =>
    simp only [execStmt] at h
    split at h
    · cases h
      exact ⟨fun x hx => hx, fun q hq => hq⟩
    · split at h
      · cases h
        exact ⟨fun x hx => List.mem_cons_of_mem _ hx, fun q hq => hq⟩
      · cases h
  | useCatalog c =>
    simp only [execStmt] at h
    split at h
    · cases h
      exact ⟨fun x hx => hx, fun q hq => hq⟩
    · cases h
  | createSchema q n =>
    simp only [execStmt] at h
    split at h
    · cases h
    · split at h
      · split at h
        · cases h
          exact ⟨fun x hx => hx, fun q hq => hq⟩
        · split at h
          · cases h
            exact ⟨fun x hx => hx, fun q hq => List.mem_cons_of_mem _ hq⟩
          · cases h
      · cases h

/-- Running any script, to completion or up to a failure, never removes a
catalog or a schema. -/
lemma runStmts_mono (p : Perms) :
    ∀ (l : List Stmt) (s : PlatformState),
      s.catalogs ⊆ (runStmts p l s).state.catalogs ∧
      s.schemas ⊆ (runStmts p l s).state.schemas := by
  intro l
  induction l with
  | nil => exact fun s => ⟨fun x hx => hx, fun q hq => hq⟩
  | cons stmt rest ih =>
    intro s
    simp only [runStmts]
    cases he : execStmt p s stmt with
    | ok s1 =>
      simp only [he]
      obtain ⟨h1c, h1s⟩ := execStmt_mono p stmt s s1 he
      obtain ⟨h2c, h2s⟩ := ih s1
      exact ⟨List.Subset.trans h1c h2c, List.Subset.trans h1s h2s⟩
    | error m =>
      simp only [he]
      exact ⟨fun x hx => hx, fun q hq => hq⟩

/-- C8: the provisioner never mutates or destroys a namespace — after any
run, complete or aborted, every pre-existing catalog and schema is still
listed (the namespace set grows monotonically). -/
theorem provisioner_never_destroys (p : Perms) (s : PlatformState) :
    s.catalogs ⊆ (runProvisioner p s).state.catalogs ∧
    s.schemas ⊆ (runProvisioner p s).state.schemas :=
  runStmts_mono p setup_catalogs s

/-- Containment well-formedness: every listed schema has a listed parent
catalog (no dangling schema). -/
def wellFormed (s : PlatformState) : Prop :=
  ∀ q ∈ s.schemas, q.1 ∈ s.catalogs

/-- The intermediate states of a run: the initial state, then the state
after each executed statement, stopping at a failure. -/
def trace (p : Perms) : List Stmt → PlatformState → List PlatformState
  | [], s => [s]
  | stmt :: rest, s =>
      s :: (match execStmt p s stmt with
            | .ok s' => trace p rest s'
            | .error _ => [])

/-- Each successful statement preserves containment well-formedness: a
schema is only ever created after its parent catalog is confirmed to
exist. -/
lemma execStmt_wellFormed (p : Perms) (t : Stmt) (s s' : PlatformState)
    (h : execStmt p s t = .ok s') (hw : wellFormed s) : wellFormed s' := by
  cases t with
  | createCatalog c =>
    simp only [execStmt] at h
    split at h
    · cases h
      exact hw
    · split at h
      · cases h
        exact fun q hq => List.mem_cons_of_mem _ (hw q hq)
      · cases h
  | useCatalog c =>
    simp only [execStmt] at h
    split at h
    · cases h
      exact hw
    · cases h
  | createSchema q n =>
    simp only [execStmt] at h
    split at h
    · cases h
    · split at h
      · split at h
        · cases h
          exact hw
        · split at h
          · cases h
            intro q2 hq2
            rcases List.mem_cons.mp hq2 with rfl | hq2
            · assumption
            · exact hw q2 hq2
          · cases h
      · cases h

/-- Containment well-formedness holds at every intermediate state of any
run started from a well-formed state. -/
lemma trace_wellFormed (p : Perms) :
    ∀ (l : List Stmt) (s : PlatformState), wellFormed s →
      ∀ t ∈ trace p l s, wellFormed t := by
  intro l
  induction l with
  | nil =>
    intro s hw t ht
    simp only [trace, List.mem_singleton] at ht
    exact ht ▸ hw
  | cons stmt rest ih =>
    intro s hw t ht
    simp only [trace] at ht
    rcases List.mem_cons.mp ht with rfl | ht2
    · exact hw
    · cases he : execStmt p s stmt with
      | ok s1 =>
        simp only [he] at ht2
        exact ih s1 (execStmt_wellFormed p stmt s s1 he hw) t ht2
      | error m =>
        simp only [he] at ht2
        cases ht2

/-- C9: run from any well-formed state, at every intermediate point of the
provisioner (after each statement) every existing schema has an existing
parent catalog — the catalog `fmcg` exists before any of its schemas is
created, so containment is never dangling. -/
theorem containment_invariant (p : Perms) (s : PlatformState)
    (hw : wellFormed s) :
    ∀ t ∈ trace p setup_catalogs s, wellFormed t :=
  trace_wellFormed p setup_catalogs s hw

/-- Witness for C9: the empty platform is well-formed and so is every
intermediate state of a full-privilege run from it. -/
theorem containment_invariant_witness :
    wellFormed emptyPlatform ∧
    ∀ t ∈ trace allPerms setup_catalogs emptyPlatform, wellFormed t :=
  ⟨by simp [wellFormed, emptyPlatform],
    containment_invariant allPerms emptyPlatform
      (by simp [wellFormed, emptyPlatform])⟩

/-- Whether a statement reads the session's active catalog (only an
unqualified `CREATE SCHEMA` does; the notebook contains none). -/
def readsSession : Stmt → Bool
  | .createSchema none _ => true
  | _ => false

/-- The namespace-relevant projection of a statement outcome: error
message, or the catalog and schema listings of the new state. -/
def nsProject :
    Except String PlatformState →
      Except String (List String × List (String × String))
  | .ok s => .ok (s.catalogs, s.schemas)
  | .error m => .error m

/-- A statement that does not read the session resolves identically on any
two states with the same catalog and schema listings. -/
lemma execStmt_nsProject (p : Perms) (t : Stmt) (s1 s2 : PlatformState)
    (hr : readsSession t = false)
    (hc : s1.catalogs = s2.catalogs) (hs : s1.schemas = s2.schemas) :
    nsProject (execStmt p s1 t) = nsProject (execStmt p s2 t) := by
  cases t with
  | createCatalog c =>
    simp only [execStmt]
    by_cases hmem : c ∈ s2.catalogs
    · simp [hc, hmem, nsProject, hs]
    · cases hp : p.canCreateCatalog <;>
        simp [hc, hmem, hp, nsProject, hs]
  | useCatalog c =>
    simp only [execStmt]
    by_cases hmem : c ∈ s2.catalogs
    · simp [hc, hmem, nsProject, hs]
    · simp [hc, hmem, nsProject]
  | createSchema q n =>
    cases q with
    | none => simp [readsSession] at hr
    | some c =>
      simp only [execStmt, Option.orElse]
      by_cases hmem : c ∈ s2.catalogs
      · by_cases hsch : (c, n) ∈ s2.schemas
        · simp [hc, hs, hmem, hsch, nsProject]
        · cases hp : p.canCreateSchema <;>
            simp [hc, hs, hmem, hsch, hp, nsProject]
      · simp [hc, hmem, nsProject]

/-- A script with no session-reading statement has its success status and
final namespace listings determined by the initial namespace listings
alone. -/
lemma runStmts_nsTransfer (p : Perms) :
    ∀ (l : List Stmt), (∀ t ∈ l, readsSession t = false) →
      ∀ (s1 s2 : PlatformState),
        s1.catalogs = s2.catalogs → s1.schemas = s2.schemas →
        (runStmts p l s1).isOk = (runStmts p l s2).isOk ∧
        (runStmts p l s1).state.catalogs = (runStmts p l s2).state.catalogs ∧
        (runStmts p l s1).state.schemas = (runStmts p l s2).state.schemas := by
  intro l
  induction l with
  | nil => exact fun _ s1 s2 hc hs => ⟨rfl, hc, hs⟩
  | cons stmt rest ih =>
    intro hall s1 s2 hc hs
    have hstmt := execStmt_nsProject p stmt s1 s2
      (hall stmt (List.mem_cons_self stmt rest)) hc hs
    simp only [runStmts]
    cases he1 : execStmt p s1 stmt with
    | ok a =>
      cases he2 : execStmt p s2 stmt with
      | ok b =>
        simp only [he1, he2]
        rw [he1, he2] at hstmt
        simp only [nsProject, Except.ok.injEq, Prod.mk.injEq] at hstmt
        exact ih (fun t ht => hall t (List.mem_cons_of_mem stmt ht))
          a b hstmt.1 hstmt.2
      | error m =>
        rw [he1, he2] at hstmt
        simp [nsProject] at hstmt
    | error m =>
      cases he2 : execStmt p s2 stmt with
      | ok b =>
        rw [he1, he2] at hstmt
        simp [nsProject] at hstmt
      | error m2 =>
        simp only [he1, he2]
        exact ⟨rfl, hc, hs⟩

/-- C10: the provisioner is deterministic — equal initial states give equal
outcomes — and, more precisely, its success status and final namespace
listings are a function of the initial namespace listings alone (the
script takes no input and reads no configuration). -/
theorem run_determined_by_initial_state (p : Perms) (s1 s2 : PlatformState)
    (hc : s1.catalogs = s2.catalogs) (hs : s1.schemas = s2.schemas) :
    (s1 = s2 → runProvisioner p s1 = runProvisioner p s2) ∧
    (runProvisioner p s1).isOk = (runProvisioner p s2).isOk ∧
    (runProvisioner p s1).state.catalogs =
      (runProvisioner p s2).state.catalogs ∧
    (runProvisioner p s1).state.schemas =
      (runProvisioner p s2).state.schemas :=
  ⟨fun he => he ▸ rfl,
    runStmts_nsTransfer p setup_catalogs (by decide) s1 s2 hc hs⟩

/-- An empty-namespace platform that differs from `emptyPlatform` in its
session context and table data. -/
def noisyPlatform : PlatformState :=
  ⟨[], [], some "main", [("legacy.sales", ["row1", "row2"])]⟩

/-- Witness for C10: two platforms with equal (empty) namespace listings
but different sessions and data get the same run outcome on namespaces. -/
theorem run_determined_witness :
    emptyPlatform.catalogs = noisyPlatform.catalogs ∧
    (runProvisioner allPerms emptyPlatform).isOk =
      (runProvisioner allPerms noisyPlatform).isOk ∧
    (runProvisioner allPerms emptyPlatform).state.catalogs =
      (runProvisioner allPerms noisyPlatform).state.catalogs ∧
    (runProvisioner allPerms emptyPlatform).state.schemas =
      (runProvisioner allPerms noisyPlatform).state.schemas :=
  ⟨rfl, (run_determined_by_initial_state allPerms emptyPlatform
    noisyPlatform rfl rfl).2⟩

/-- The notebook's statement sequence with step 2 (`USE CATALOG fmcg`)
omitted; the three `CREATE SCHEMA` statements keep their fully qualified
names exactly as in the source. -/
def setupWithoutUse : List Stmt :=
  [ .createCatalog "fmcg",
    .createSchema (some "fmcg") "gold",
    .createSchema (some "fmcg") "silver",
    .createSchema (some "fmcg") "bronze" ]

/-- Omitting `USE CATALOG fmcg` changes neither whether the run succeeds
nor which catalogs and schemas it leaves behind, because the schema names
are fully qualified. -/
lemma withoutUse_same_namespaces (p : Perms) (s : PlatformState) :
    (runStmts p setupWithoutUse s).isOk = (runProvisioner p s).isOk ∧
    (runStmts p setupWithoutUse s).state.catalogs =
      (runProvisioner p s).state.catalogs ∧
    (runStmts p setupWithoutUse s).state.schemas =
      (runProvisioner p s).state.schemas := by
  simp only [runProvisioner, setupWithoutUse, setup_catalogs, runStmts]
  cases he : execStmt p s (.createCatalog "fmcg") with
  | error m =>
    simp [he]
  | ok s1 =>
    simp only [he]
    have hmem : "fmcg" ∈ s1.catalogs :=
      (((createCatalog_ok p s "fmcg" s1 he).2.2.2) "fmcg").2 (Or.inl rfl)
    have hu : execStmt p s1 (.useCatalog "fmcg") =
        .ok { s1 with activeCatalog := some "fmcg" } := by
      simp [execStmt, hmem]
    simp only [hu]
    exact runStmts_nsTransfer p
      [ .createSchema (some "fmcg") "gold",
        .createSchema (some "fmcg") "silver",
        .createSchema (some "fmcg") "bronze" ]
      (by decide) s1 { s1 with activeCatalog := some "fmcg" } rfl rfl

/-- Counterexample to C7 as stated: there is no initial state (and no
privilege assignment) on which omitting step 2 makes the schema-creation
statements fail or resolve to different namespaces — the names are fully
qualified, so step 2 is not needed for their resolution. -/
theorem use_catalog_not_needed :
    ¬ ∃ (p : Perms) (s : PlatformState),
      (runStmts p setupWithoutUse s).isOk ≠ (runProvisioner p s).isOk ∨
      (runStmts p setupWithoutUse s).state.catalogs ≠
        (runProvisioner p s).state.catalogs ∨
      (runStmts p setupWithoutUse s).state.schemas ≠
        (runProvisioner p s).state.schemas := by
  rintro ⟨p, s, h⟩
  obtain ⟨h1, h2, h3⟩ := withoutUse_same_namespaces p s
  rcases h with h | h | h
  · exact h h1
  · exact h h2
  · exact h h3

/-- No statement reads or writes table data. -/
lemma execStmt_tables (p : Perms) (t : Stmt) (s s' : PlatformState)
    (h : execStmt p s t = .ok s') : s'.tables = s.tables := by
  cases t with
  | createCatalog c =>
    simp only [execStmt] at h
    split at h
    · cases h
      rfl
    · split at h
      · cases h
        rfl
      · cases h
  | useCatalog c =>
    simp only [execStmt] at h
    split at h
    · cases h
      rfl
    · cases h
  | createSchema q n =>
    simp only [execStmt] at h
    split at h
    · cases h
    · split at h
      · split at h
        · cases h
          rfl
        · split at h
          · cases h
            rfl
          · cases h
      · cases h

/-- No run, complete or aborted, reads or writes table data. -/
lemma runStmts_tables (p : Perms) :
    ∀ (l : List Stmt) (s : PlatformState),
      (runStmts p l s).state.tables = s.tables := by
  intro l
  induction l with
  | nil => exact fun s => rfl
  | cons stmt rest ih =>
    intro s
    simp only [runStmts]
    cases he : execStmt p s stmt with
    | ok s1 =>
      simp only [he]
      rw [ih s1, execStmt_tables p stmt s s1 he]
    | error m =>
      simp only [he]
      rfl

/-- C7 (amended): step 2 is not needed for schema-name resolution — the
schema-creation statements carry fully qualified names, so the script with
`USE CATALOG fmcg` omitted succeeds exactly when the full script does and
leaves the same catalogs, schemas and table data; the final states can
differ only in the session's active-catalog setting. -/
theorem omitting_use_only_changes_session (p : Perms) (s : PlatformState) :
    (runStmts p setupWithoutUse s).isOk = (runProvisioner p s).isOk ∧
    (runStmts p setupWithoutUse s).state.catalogs =
      (runProvisioner p s).state.catalogs ∧
    (runStmts p setupWithoutUse s).state.schemas =
      (runProvisioner p s).state.schemas ∧
    (runStmts p setupWithoutUse s).state.tables =
      (runProvisioner p s).state.tables := by
  obtain ⟨h1, h2, h3⟩ := withoutUse_same_namespaces p s
  refine ⟨h1, h2, h3, ?_⟩
  rw [runStmts_tables p setupWithoutUse s, runProvisioner,
    runStmts_tables p setup_catalogs s]
